import Mathlib

/-!
Verification of the Herald messaging engine (cohorte-herald, python sources).

The Python source is shallowly embedded: Python dicts become association
lists over `String` keys (insertion-ordered, unique keys), Python sets of
peer UIDs become duplicate-free `List String` values with explicit set
operations, exceptions become `Except`, and the effectful transport /
broker calls become explicit traces or boolean outcome parameters.
Every definition mirrors one function of the source
tree (`herald/core.py`, `herald/beans.py`,
`herald/transports/mqtt/transport.py`, `herald/transports/mqtt/models.py`);
doc comments cite the function embedded.
-/

deriving instance DecidableEq for Except

namespace Herald

/-- Python-dict lookup: first (unique) binding of a key in an
association list. -/
def lookup {α : Type} (l : List (String × α)) (k : String) : Option α :=
  match l with
  | [] => none
  | (k', v) :: rest => if k' = k then some v else lookup rest k

/-- Python-dict deletion `del d[k]` (a dict holds the key at most once,
so filtering every binding is the same operation). -/
def eraseKey {α : Type} (l : List (String × α)) (k : String) :
    List (String × α) :=
  l.filter (fun kv => kv.1 ≠ k)

/-- Python-dict assignment `d[k] = v`: updates the binding in place when
the key is present, appends it otherwise. -/
def insertD {α : Type} (l : List (String × α)) (k : String) (v : α) :
    List (String × α) :=
  match l with
  | [] => [(k, v)]
  | (k', v') :: rest =>
      if k' = k then (k, v) :: rest else (k', v') :: insertD rest k v

theorem lookup_eraseKey_self {α : Type} (l : List (String × α)) (k : String) :
    lookup (eraseKey l k) k = none := by
  induction l with
  | nil => rfl
  | cons kv rest ih =>
      by_cases h : kv.1 = k
      · simpa [eraseKey, h] using ih
      · simpa [eraseKey, lookup, h] using ih

theorem lookup_insertD_self {α : Type} (l : List (String × α)) (k : String)
    (v : α) : lookup (insertD l k v) k = some v := by
  induction l with
  | nil => simp [insertD, lookup]
  | cons kv rest ih =>
      by_cases h : kv.1 = k
      · simp [insertD, h, lookup]
      · cases kv with
        | mk k' v' =>
            simp only at h
            simp [insertD, h, lookup, ih]

/-- The Herald exception taxonomy (herald/exceptions.py, as used by
`core.py`). -/
inductive HErr where
  | noTransport (msg : String)
  | noListener (uid subject : String)
  | forgotMessage (uid : String)
  | heraldTimeout (msg : String)
deriving DecidableEq

/-- A received reply message: only its identity matters to the
correlation engine. -/
structure MsgR where
  uid : String
  subject : String
deriving DecidableEq

/-- State of a `pelix.utilities.EventData` cell, the event used by
`Herald.send` (external pelix dependency; the spec describes it as "an
event-cell holding a future reply or a pending exception").
`dataSet d` is the state after `set(d)`, `excSet e` after
`raise_exception(e)`. -/
inductive CellState where
  | unset
  | dataSet (d : Option MsgR)
  | excSet (e : HErr)
deriving DecidableEq

/-- Embedding of `EventData.wait` combined with the branch of `Herald.send`
(core.py lines 649-658): a stored exception is re-raised by `wait`;
a set cell with data is returned; a set cell holding `None` is the
invalidation sentinel; an unset cell means the deadline passed. -/
def sendWait : CellState → Except HErr MsgR
  | .excSet e => .error e
  | .dataSet (some m) => .ok m
  | .dataSet none =>
      .error (.heraldTimeout "Herald stops listening to messages")
  | .unset =>
      .error (.heraldTimeout "Timeout reached before receiving a reply")

/-- What happens to the registered sync-waiter between `fire` and the
resolution of `event.wait`. -/
inductive SendEnv where
  | reply (m : MsgR)
  | noListenerError (subject : String)
  | forgot
  | shutdown
  | timeout

/-- The effect of the resolving handler on the waiting-events table and
on the cell registered under `uid`:
* `reply`: `Herald.__notify` pops the entry and calls `set(message)`;
* `noListenerError`: `Herald._handle_error` pops the entry and calls
  `raise_exception(NoListener(uid, subject))`;
* `forgot`: `Herald.forget` pops the entry and calls
  `raise_exception(ForgotMessage(uid))`;
* `shutdown`: `Herald._invalidate` calls `set(None)` on every cell and
  clears the table;
* `timeout`: nothing touches the cell before the deadline. -/
def applyEnv (tbl : List (String × CellState)) (uid : String) :
    SendEnv → List (String × CellState) × CellState
  | .reply m =>
      match lookup tbl uid with
      | some _ => (eraseKey tbl uid, .dataSet (some m))
      | none => (tbl, .unset)
  | .noListenerError subj =>
      match lookup tbl uid with
      | some _ => (eraseKey tbl uid, .excSet (.noListener uid subj))
      | none => (tbl, .unset)
  | .forgot =>
      match lookup tbl uid with
      | some _ => (eraseKey tbl uid, .excSet (.forgotMessage uid))
      | none => (tbl, .unset)
  | .shutdown =>
      ([], if (lookup tbl uid).isSome then .dataSet none else .unset)
  | .timeout => (tbl, .unset)

/-- Embedding of `Herald.send` (core.py lines 626-665): registers an `EventData`
cell under `message.uid`, fires the message (outcome passed in as
`fireResult`), waits for the resolution, and in the `finally` block
deletes the waiting-events entry, ignoring `KeyError`.  Returns the
outcome of the call and the final waiting-events table. -/
def send (tbl : List (String × CellState)) (uid : String)
    (fireResult : Except HErr Unit) (env : SendEnv) :
    Except HErr MsgR × List (String × CellState) :=
  let tbl1 := insertD tbl uid .unset
  match fireResult with
  | .error e => (.error e, eraseKey tbl1 uid)
  | .ok _ =>
      let r := applyEnv tbl1 uid env
      (sendWait r.2, eraseKey r.1 uid)

/-- The claim's description of `send`'s outcome, written from the spec's
words: fire failures propagate; a reply is returned; a `no-listener`
error raises `NoListener(uid, subject)`; `forget` raises
`ForgotMessage`; shutdown surfaces as the stop-listening
`HeraldTimeout`; a deadline miss raises the timeout `HeraldTimeout`. -/
def sendSpec (uid : String) (fireResult : Except HErr Unit)
    (env : SendEnv) : Except HErr MsgR :=
  match fireResult with
  | .error e => .error e
  | .ok _ =>
      match env with
      | .reply m => .ok m
      | .noListenerError subj => .error (.noListener uid subj)
      | .forgot => .error (.forgotMessage uid)
      | .shutdown =>
          .error (.heraldTimeout "Herald stops listening to messages")
      | .timeout =>
          .error (.heraldTimeout "Timeout reached before receiving a reply")

/-- C1. Whatever the prior table, the fire outcome and the resolving
event, `send` resolves exactly as the spec's four-way case analysis
(plus fire-failure propagation and the deadline miss) describes, and on
every exit path the sync-waiter entry for `message.uid` is gone from
the waiting-events table. -/
theorem send_resolution_and_cleanup (tbl : List (String × CellState))
    (uid : String) (fireResult : Except HErr Unit) (env : SendEnv) :
    (send tbl uid fireResult env).1 = sendSpec uid fireResult env ∧
      lookup (send tbl uid fireResult env).2 uid = none := by
  cases fireResult with
  | error e =>
      exact ⟨rfl, by simp [send, lookup_eraseKey_self]⟩
  | ok u =>
      cases env <;>
        simp [send, sendSpec, applyEnv, lookup_insertD_self, sendWait,
              lookup_eraseKey_self, lookup]

/-- Inner loop of `Herald.fire` (core.py lines 539-558): iterate the
peer's access ids in insertion order; skip an access with no bound
transport (`KeyError`) or whose transport raises `InvalidPeerAccess`
(`lookup ts a = some false`); on the first success break and return
`message.uid`; if the loop exhausts, raise `NoTransport`. -/
def fireLoop (ts : List (String × Bool)) (peerStr uid : String) :
    List String → Except HErr String
  | [] => .error (.noTransport ("No transport found for peer " ++ peerStr))
  | a :: rest =>
      match lookup ts a with
      | none => fireLoop ts peerStr uid rest
      | some ok => if ok then .ok uid else fireLoop ts peerStr uid rest

/-- Embedding of `Herald.fire` (core.py lines 517-560): `NoTransport` when the
transports dict is empty, otherwise the access fallback loop.
`ts` maps each bound access id to whether its `transport.fire` succeeds
(`false` = raises `InvalidPeerAccess`) for this peer and message. -/
def fire (ts : List (String × Bool)) (peerStr : String)
    (accesses : List String) (uid : String) : Except HErr String :=
  if ts.isEmpty then .error (.noTransport "No transport bound yet.")
  else fireLoop ts peerStr uid accesses

theorem fireLoop_cons_none {ts : List (String × Bool)} {a : String}
    (peerStr uid : String) (rest : List String) (h : lookup ts a = none) :
    fireLoop ts peerStr uid (a :: rest) = fireLoop ts peerStr uid rest := by
  simp [fireLoop, h]

theorem fireLoop_cons_false {ts : List (String × Bool)} {a : String}
    (peerStr uid : String) (rest : List String)
    (h : lookup ts a = some false) :
    fireLoop ts peerStr uid (a :: rest) = fireLoop ts peerStr uid rest := by
  simp [fireLoop, h]

theorem fireLoop_cons_true {ts : List (String × Bool)} {a : String}
    (peerStr uid : String) (rest : List String)
    (h : lookup ts a = some true) :
    fireLoop ts peerStr uid (a :: rest) = .ok uid := by
  simp [fireLoop, h]

theorem fireLoop_ok_iff (ts : List (String × Bool)) (peerStr uid : String)
    (accs : List String) :
    fireLoop ts peerStr uid accs = .ok uid ↔
      ∃ a ∈ accs, lookup ts a = some true := by
  induction accs with
  | nil =>
      constructor
      · intro h; exact absurd h (by simp [fireLoop])
      · rintro ⟨a, ha, _⟩; cases ha
  | cons a rest ih =>
      have step : ∀ (hstep : fireLoop ts peerStr uid (a :: rest) =
          fireLoop ts peerStr uid rest) (hna : lookup ts a ≠ some true),
          (fireLoop ts peerStr uid (a :: rest) = .ok uid ↔
            ∃ b ∈ a :: rest, lookup ts b = some true) := by
        intro hstep hna
        rw [hstep, ih]
        constructor
        · rintro ⟨b, hb, hbt⟩; exact ⟨b, List.mem_cons_of_mem _ hb, hbt⟩
        · rintro ⟨b, hb, hbt⟩
          rcases List.mem_cons.mp hb with rfl | hb'
          · exact absurd hbt hna
          · exact ⟨b, hb', hbt⟩
      cases h : lookup ts a with
      | none =>
          exact step (fireLoop_cons_none peerStr uid rest h) (by simp [h])
      | some ok =>
          cases ok with
          | false =>
              exact step (fireLoop_cons_false peerStr uid rest h)
                (by simp [h])
          | true =>
              rw [fireLoop_cons_true peerStr uid rest h]
              exact ⟨fun _ => ⟨a, List.mem_cons_self a rest, h⟩,
                fun _ => rfl⟩

theorem fireLoop_exhaust (ts : List (String × Bool)) (peerStr uid : String)
    (accs : List String)
    (h : ∀ a ∈ accs, lookup ts a ≠ some true) :
    fireLoop ts peerStr uid accs =
      .error (.noTransport ("No transport found for peer " ++ peerStr)) := by
  induction accs with
  | nil => rfl
  | cons a rest ih =>
      have ha := h a (List.mem_cons_self a rest)
      have ihr := ih (fun b hb => h b (List.mem_cons_of_mem _ hb))
      cases hl : lookup ts a with
      | none => rw [fireLoop_cons_none peerStr uid rest hl]; exact ihr
      | some ok =>
          cases ok with
          | false => rw [fireLoop_cons_false peerStr uid rest hl]; exact ihr
          | true => exact absurd hl ha

/-- C2. `fire` returns `message.uid` exactly when some access id of
the peer (in insertion order) has a bound transport whose `fire` does
not raise `InvalidPeerAccess`; it raises `NoTransport` when no
transport is bound at all, and also when every access was rejected. -/
theorem fire_spec (ts : List (String × Bool)) (peerStr : String)
    (accs : List String) (uid : String) :
    (fire ts peerStr accs uid = .ok uid ↔
        ∃ a ∈ accs, lookup ts a = some true) ∧
      (ts = [] →
        fire ts peerStr accs uid =
          .error (.noTransport "No transport bound yet.")) ∧
      (ts ≠ [] → (∀ a ∈ accs, lookup ts a ≠ some true) →
        fire ts peerStr accs uid =
          .error (.noTransport ("No transport found for peer " ++ peerStr))) := by
  refine ⟨?_, ?_, ?_⟩
  · constructor
    · intro h
      by_cases hts : ts.isEmpty
      · simp [fire, hts] at h
      · rw [fire, if_neg hts] at h
        exact (fireLoop_ok_iff ts peerStr uid accs).mp h
    · rintro ⟨a, ha, hat⟩
      have hts : ¬ ts.isEmpty := by
        intro h0
        rw [List.isEmpty_iff] at h0
        subst h0
        simp [lookup] at hat
      rw [fire, if_neg hts]
      exact (fireLoop_ok_iff ts peerStr uid accs).mpr ⟨a, ha, hat⟩
  · intro h; subst h; rfl
  · intro hne hall
    have hts : ¬ ts.isEmpty := by
      intro h0; exact hne (List.isEmpty_iff.mp h0)
    rw [fire, if_neg hts]
    exact fireLoop_exhaust ts peerStr uid accs hall

/-- Witness for C2 at concrete inputs: one peer reachable over `mqtt`;
an empty transports table; a peer whose single access is rejected. -/
theorem fire_spec_witness :
    fire [("mqtt", true)] "p" ["mqtt"] "u" = .ok "u" ∧
      fire [] "p" ["mqtt"] "u" =
        .error (.noTransport "No transport bound yet.") ∧
      fire [("mqtt", false)] "p" ["mqtt"] "u" =
        .error (.noTransport ("No transport found for peer " ++ "p")) := by
  refine ⟨?_, ?_, ?_⟩
  · exact (fire_spec [("mqtt", true)] "p" ["mqtt"] "u").1.mpr
      ⟨"mqtt", by decide, by decide⟩
  · exact (fire_spec [] "p" ["mqtt"] "u").2.1 rfl
  · exact (fire_spec [("mqtt", false)] "p" ["mqtt"] "u").2.2
      (by decide) (by decide)

/-- Python `subject.split('/')` (models.py never splits;
core.py line 355 does): cut the character list at every slash,
keeping empty chunks. -/
def splitSlashAux : List Char → List Char → List String
  | [], acc => [String.mk acc.reverse]
  | c :: rest, acc =>
      if c = '/' then String.mk acc.reverse :: splitSlashAux rest []
      else splitSlashAux rest (c :: acc)

/-- core.py line 355: `tuple(part for part in message.subject.split('/')
if part)` — the non-empty slash-separated segments of the subject. -/
def partsOf (subject : String) : List String :=
  (splitSlashAux subject.data []).filter (fun p => p ≠ "")

/-- Observable engine steps taken by `Herald.handle_message` and
`Herald.__notify`. -/
inductive EngineAction where
  | handleError (kind : String)
  | handleDirectory (kind : String)
  | notifyListeners
  | replyNoListener
deriving DecidableEq

/-- Listener branch of `Herald.__notify` (core.py lines 460-482): when
at least one compiled filter matches, the listeners are enqueued on the
worker pool; otherwise a `herald/error/no-listener` reply is sent.
`hasListener` abstracts "some filter matches the subject". -/
def notifyActions (hasListener : Bool) : List EngineAction :=
  if hasListener then [.notifyListeners] else [.replyNoListener]

/-- Embedding of `Herald.handle_message` (core.py lines 346-372): splits the subject
into non-empty parts; on `('herald', 'error', kind, ...)` calls
`_handle_error` and RETURNS; on `('herald', 'directory', kind, ...)`
calls `_handle_directory_message` and falls through to `__notify`
(there is no `return` in that branch); any `IndexError` (fewer than
three parts) is swallowed and `__notify` runs. -/
def handleMessage (subject : String) (hasListener : Bool) :
    List EngineAction :=
  match partsOf subject with
  | "herald" :: "error" :: kind :: _ => [.handleError kind]
  | "herald" :: "directory" :: kind :: _ =>
      .handleDirectory kind :: notifyActions hasListener
  | _ => notifyActions hasListener

/-- C4, counterexample. A `herald/directory/bye` message with no
matching listener is dispatched to the directory handler but then DOES
run the notify pipeline and issues a `herald/error/no-listener` reply,
contradicting both parts of the claim. -/
theorem handleMessage_directory_notifies :
    handleMessage "herald/directory/bye" false =
        [.handleDirectory "bye", .replyNoListener] ∧
      EngineAction.replyNoListener ∈ handleMessage "herald/directory/bye" false := by
  constructor
  · rfl
  · decide

/-- C4, amended. Only `herald/error/<kind>` messages return without
notification; `herald/directory/<kind>` messages are dispatched to the
directory handler and then continue into the notify pipeline, where a
message with no matching listener still triggers the
`herald/error/no-listener` reply. -/
theorem handleMessage_dispatch (subject : String) (hasListener : Bool)
    (kind : String) (rest : List String) :
    (partsOf subject = "herald" :: "error" :: kind :: rest →
        handleMessage subject hasListener = [.handleError kind]) ∧
      (partsOf subject = "herald" :: "directory" :: kind :: rest →
        handleMessage subject hasListener =
          .handleDirectory kind ::
            (if hasListener then [.notifyListeners]
             else [.replyNoListener])) := by
  constructor
  · intro h; simp [handleMessage, h]
  · intro h; simp [handleMessage, h, notifyActions]

/-- Witness for the amended C4 at concrete subjects. -/
theorem handleMessage_dispatch_witness :
    handleMessage "herald/error/no-listener" true =
        [.handleError "no-listener"] ∧
      handleMessage "herald/directory/newcomer" false =
        [.handleDirectory "newcomer", .replyNoListener] := by
  constructor
  · exact (handleMessage_dispatch "herald/error/no-listener" true
      "no-listener" []).1 (by decide)
  · exact (handleMessage_dispatch "herald/directory/newcomer" false
      "newcomer" []).2 (by decide)

/-- Embedding of `_WaitingPost` (core.py lines 74-143): whether an errback was
given, and the forget-on-first flag.  The callback itself is assumed
callable (post requires one); only its invocation is tracked. -/
structure WaitingPost where
  hasErrback : Bool
  forgetOnFirst : Bool
deriving DecidableEq

/-- Embedding of `_WaitingPost.callback` (core.py lines 116-128): the guard in the
source reads `if self.__errback is not None:` — it tests the ERRBACK
field before calling the callback, so the callback runs exactly when an
errback was supplied. -/
def WaitingPost.callbackRuns (wp : WaitingPost) : Bool := wp.hasErrback

/-- Reply-correlation half of `Herald.__notify` (core.py lines
438-458) for a received message with `reply_to`: pop and resolve the
matching sync-waiter; look up the matching async-waiter, run
`_WaitingPost.callback`, and delete the entry when `forget_on_first`.
Returns the new waiting-events table, the new waiting-posts table and
whether the user callback was actually invoked. -/
def notifyReply (events : List (String × CellState))
    (posts : List (String × WaitingPost)) (replyTo : String) :
    List (String × CellState) × List (String × WaitingPost) × Bool :=
  if replyTo = "" then (events, posts, false)
  else
    let events' :=
      match lookup events replyTo with
      | some _ => eraseKey events replyTo
      | none => events
    match lookup posts replyTo with
    | none => (events', posts, false)
    | some wp =>
        (events',
         if wp.forgetOnFirst then eraseKey posts replyTo else posts,
         wp.callbackRuns)

/-- C5, the code at the failing input. A reply arrives for a post
registered with a callback but `errback=None` (`hasErrback = false`):
the sync-waiter is resolved and removed and the async-waiter is
forgotten, but the callback is NOT invoked, because
`_WaitingPost.callback` guards on the errback field. -/
theorem notifyReply_skips_callback_without_errback :
    notifyReply [("u1", .unset)] [("u1", ⟨false, true⟩)] "u1" =
      ([], [], false) := by
  decide

/-- Embedding of `Herald.post` (core.py lines 667-701): registers a `_WaitingPost`
under `message.uid`, then `return self.fire(...)`; the bare `except:`
removes the waiter but does NOT re-raise, so the function falls off its
end and returns `None`.  The result is `Option String` (`none` models
Python's implicit `None` return); no exception ever escapes. -/
def post (posts : List (String × WaitingPost)) (uid : String)
    (wp : WaitingPost) (fireResult : Except HErr String) :
    Option String × List (String × WaitingPost) :=
  let posts1 := insertD posts uid wp
  match fireResult with
  | .ok u => (some u, posts1)
  | .error _ => (none, eraseKey posts1 uid)

/-- C6, the code at the failing input. When `fire` raises
`NoTransport` (no transport bound), `post` removes the freshly
registered async-waiter but swallows the exception and returns `None`
instead of propagating it. -/
theorem post_swallows_fire_exception :
    post [] "u1" ⟨true, true⟩
        (.error (.noTransport "No transport bound yet.")) =
      (none, []) ∧
      post [] "u1" ⟨true, true⟩ (.ok "u1") =
        (some "u1", [("u1", ⟨true, true⟩)]) := by
  decide

/-- Embedding of `_WaitingPost.is_dead` (core.py lines 105-114): the source returns
`self.__deadline > time.time()`, i.e. TRUE while the deadline is still
in the FUTURE; entries with no deadline are never dead. -/
def isDead (deadline : Option Nat) (now : Nat) : Bool :=
  match deadline with
  | some d => decide (now < d)
  | none => false

/-- Embedding of `Herald.__garbage_collect` (core.py lines 334-344): delete every
waiting-post entry for which `is_dead()` holds. -/
def garbageCollect (posts : List (String × Option Nat)) (now : Nat) :
    List (String × Option Nat) :=
  posts.filter (fun kv => ¬ isDead kv.2 now)

/-- C7, the code at the failing input. At `now = 50`, the sweep
removes the entry whose deadline (100) has NOT passed and retains the
entry whose deadline (10) HAS passed — the exact inverse of the claim
(the inverted `is_dead` the spec itself flags).  Entries with no
deadline are retained. -/
theorem garbageCollect_inverted :
    garbageCollect [("future", some 100), ("expired", some 10),
        ("forever", none)] 50 =
      [("expired", some 10), ("forever", none)] := by
  decide

/-- Where `MqttTransport.on_message` sends an inbound message. -/
inductive RouteAction where
  | dropped
  | toContact
  | toHerald
deriving DecidableEq

/-- Modelled from the spec: `SUBJECT_DISCOVERY_PREFIX` is imported from
`herald/transports/peer_contact.py`, a module absent from the source
tree; spec §4.5 gives the prefix as `herald/discovery/`. -/
def SUBJECT_DISCOVERY_PREFIX : String := "herald/discovery/"

/-- Embedding of `MqttTransport.on_message` (transport.py lines 135-179): drop a
message whose decoded sender UID is the local peer's UID (loop
suppression); route a subject starting with the discovery prefix to the
peer-contact handler; drop a non-discovery message whose sender is not
in the directory (`get_peer` raises `KeyError`); hand everything else
to `handle_message`.  `knownPeers` abstracts the directory contents. -/
def onMessage (localUid : String) (knownPeers : List String)
    (senderUid subject : String) : RouteAction :=
  if senderUid = localUid then .dropped
  else if subject.startsWith SUBJECT_DISCOVERY_PREFIX then .toContact
  else if knownPeers.contains senderUid then .toHerald
  else .dropped

/-- C8. `on_message` never forwards a loop-back (sender = local
peer); discovery subjects go to the peer-contact handler and never to
`handle_message`; non-discovery messages from unknown senders are
dropped; every other message reaches `handle_message`. -/
theorem onMessage_routing (localUid : String) (knownPeers : List String)
    (senderUid subject : String) :
    (onMessage localUid knownPeers senderUid subject = .toHerald ↔
        senderUid ≠ localUid ∧
          subject.startsWith SUBJECT_DISCOVERY_PREFIX = false ∧
          knownPeers.contains senderUid = true) ∧
      (onMessage localUid knownPeers senderUid subject = .toContact ↔
        senderUid ≠ localUid ∧
          subject.startsWith SUBJECT_DISCOVERY_PREFIX = true) ∧
      (onMessage localUid knownPeers senderUid subject = .dropped ↔
        senderUid = localUid ∨
          (subject.startsWith SUBJECT_DISCOVERY_PREFIX = false ∧
            knownPeers.contains senderUid = false)) := by
  unfold onMessage
  by_cases h1 : senderUid = localUid
  · simp [h1]
  · by_cases h2 : subject.startsWith SUBJECT_DISCOVERY_PREFIX
    · simp [h1, h2]
    · by_cases h3 : senderUid ∈ knownPeers
      · simp [h1, h2, h3]
      · simp [h1, h2, h3]

/-- A Python value appearing in a peer dump. -/
inductive PyVal where
  | vStr (s : String)
  | vStrList (l : List String)
  | vAccessMap (m : List (String × Bool))
deriving DecidableEq

/-- A Python container: the dump under construction is either a dict or
a set. -/
inductive PyObj where
  | pySet (xs : List PyVal)
  | pyDict (xs : List (String × PyVal))
deriving DecidableEq

/-- Python item assignment `o[k] = v`: legal on a dict, raises
`TypeError` on a set. -/
def pySetItem (o : PyObj) (k : String) (v : PyVal) :
    Except String PyObj :=
  match o with
  | .pyDict xs => .ok (.pyDict (insertD xs k v))
  | .pySet _ => .error "set object does not support item assignment"

/-- Embedding of `herald.beans.Peer`: the attributes `dump` reads.  Access
descriptors are the MQTT `Access` objects, whose `dump()` returns
`True` (models.py lines 94-100), hence `Bool` values. -/
structure PeerBean where
  uid : String
  name : String
  node_uid : String
  node_name : String
  groups : List String
  accesses : List (String × Bool)
deriving DecidableEq

/-- Embedding of `Peer.dump` (beans.py lines 165-178): the source builds
`dump = {getattr(self, name) for name in ('uid', 'name', 'node_uid',
'node_name', 'groups')}` — a SET comprehension collecting the attribute
VALUES — and then executes `dump['accesses'] = {...}`, an item
assignment on that set. -/
def PeerBean.dump (p : PeerBean) : Except String PyObj :=
  let d : PyObj := .pySet
    [.vStr p.uid, .vStr p.name, .vStr p.node_uid, .vStr p.node_name,
     .vStrList p.groups]
  pySetItem d "accesses" (.vAccessMap p.accesses)

/-- C9, the code at the failing input. Dumping any peer — here
`Peer("p1")` with one MQTT access — raises `TypeError`: the value
collection is a set, not a dict keyed by attribute name, so the
`accesses` assignment fails and no mapping is ever returned. -/
theorem peer_dump_type_error :
    PeerBean.dump ⟨"p1", "p1", "p1", "p1", [], [("mqtt", true)]⟩ =
      .error "set object does not support item assignment" := by
  rfl

/-- Calls the MQTT `Messenger` makes on its paho client. -/
inductive MqttAction where
  | willSet (topic payload : String) (qos : Nat)
  | connectBroker (host : String) (port : Nat)
  | loopStart
  | publish (topic payload : String) (qos : Nat)
  | loopStop
  | disconnectBroker
deriving DecidableEq

/-- models.py line 42. -/
def TOPIC_PREFIX : String := "cohorte/herald"

/-- models.py line 57. -/
def RIP_TOPIC : String := "rip"

/-- Embedding of `Messenger.__WILL_TOPIC` (models.py lines 120-121):
`"/".join((TOPIC_PREFIX, peer.app_id, RIP_TOPIC))`. -/
def willTopic (appId : String) : String :=
  TOPIC_PREFIX ++ "/" ++ appId ++ "/" ++ RIP_TOPIC

/-- Embedding of `Messenger.connect` (models.py lines 244-254) as the trace of paho
client calls it performs: set the last will to the peer's UID on the
rip topic with QoS 1, connect, start the network loop. -/
def connectTrace (appId peerUid host : String) (port : Nat) :
    List MqttAction :=
  [.willSet (willTopic appId) peerUid 1, .connectBroker host port,
   .loopStart]

/-- Embedding of `Messenger.disconnect` (models.py lines 256-264) as the trace of
paho client calls it performs: publish the peer's UID on the rip topic
with QoS 1, stop the network loop, disconnect. -/
def disconnectTrace (appId peerUid : String) : List MqttAction :=
  [.publish (willTopic appId) peerUid 1, .loopStop, .disconnectBroker]

/-- C10. A graceful `disconnect` first publishes the local peer's
UID on the rip topic with QoS 1 — the same topic, payload and QoS as
the broker last-will installed by `connect` — and only then stops the
network loop and disconnects from the broker. -/
theorem disconnect_publishes_will_first (appId peerUid host : String)
    (port : Nat) :
    disconnectTrace appId peerUid =
        .publish (willTopic appId) peerUid 1 ::
          [.loopStop, .disconnectBroker] ∧
      MqttAction.willSet (willTopic appId) peerUid 1 ∈
        connectTrace appId peerUid host port := by
  exact ⟨rfl, by simp [connectTrace]⟩

/-- Python `set.add`: a set is embedded as a duplicate-free list (its
iteration order standing in for the set's arbitrary order). -/
def setAdd (s : List String) (p : String) : List String :=
  if s.contains p then s else s ++ [p]

/-- Python `set.difference_update(t)` on distinct objects: drop the
members of `t`. -/
def setDiff (s t : List String) : List String :=
  s.filter (fun x => ¬ t.contains x)

/-- Python `s <= t` on sets: every member of `s` is in `t`. -/
def setSub (s t : List String) : Bool :=
  s.all (fun x => t.contains x)

/-- Python set equality: mutual containment. -/
def setEqB (s t : List String) : Bool :=
  setSub s t && setSub t s

/-- Python `s | t`. -/
def setUnion (s t : List String) : List String :=
  t.foldl setAdd s

/-- Union of the peer sets stored in the access table
(`set(itertools.chain(*accesses.values()))`, core.py line 620). -/
def unionVals (m : List (String × List String)) : List String :=
  m.foldl (fun acc kv => setUnion acc kv.2) []

/-- Union of the peer sets passed to successful transport
`fire_group` calls. -/
def bigUnion (l : List (List String)) : List String :=
  l.foldl (fun acc s => setUnion acc s) []

/-- The post-success cleanup loop (core.py lines 610-615):
`for remaining_peers in accesses.values():
remaining_peers.difference_update(access_peers)`.
`access_peers` ALIASES the dict entry of the fired access `a`; CPython's
`set.difference_update` special-cases an identical argument and clears
the set.  So, in dict order: entries before `a` are reduced by `ps`;
entry `a` is cleared (it is `ps` itself); entries after `a` are reduced
by the now-EMPTY `ps`, i.e. left unchanged. -/
def subtractAll (m : List (String × List String)) (a : String)
    (ps : List String) : List (String × List String) :=
  match m with
  | [] => []
  | (k, v) :: rest =>
      if k = a then (k, ([] : List String)) :: rest
      else (k, setDiff v ps) :: subtractAll rest a ps

/-- One step of building the `access_id → set(peers)` table
(`accesses.setdefault(access, set()).add(peer)`, core.py line 582). -/
def addPeerTo (m : List (String × List String)) (a p : String) :
    List (String × List String) :=
  match lookup m a with
  | some ps => insertD m a (setAdd ps p)
  | none => m ++ [(a, [p])]

/-- All accesses of one peer added to the table. -/
def addPeer (m : List (String × List String)) (p : String)
    (accs : List String) : List (String × List String) :=
  accs.foldl (fun acc a => addPeerTo acc a p) m

/-- The full access table of a group (core.py lines 578-582); `peers`
lists each group member with its access ids in insertion order. -/
def buildAccesses (peers : List (String × List String)) :
    List (String × List String) :=
  peers.foldl (fun acc pa => addPeer acc pa.1 pa.2) []

/-- Python string comparison: lexicographic by unicode code point. -/
def strLe : List Char → List Char → Bool
  | [], _ => true
  | _ :: _, [] => false
  | a :: as, b :: bs =>
      if a.toNat < b.toNat then true
      else if b.toNat < a.toNat then false
      else strLe as bs

/-- Embedding of `sorted(((len(peers), access) ...), reverse=True)`: `x` precedes
`y` when `(x.1, x.2)` is lexicographically at least `(y.1, y.2)`. -/
def accGE (x y : Nat × String) : Bool :=
  decide (y.1 < x.1) || (decide (x.1 = y.1) && strLe y.2.data x.2.data)

def insertOrd (x : Nat × String) :
    List (Nat × String) → List (Nat × String)
  | [] => [x]
  | y :: ys => if accGE x y then x :: y :: ys else y :: insertOrd x ys

def sortDesc : List (Nat × String) → List (Nat × String)
  | [] => []
  | x :: xs => insertOrd x (sortDesc xs)

/-- Access ids in the order the fallback loop tries them
(core.py lines 585-590): descending by initial coverage, ties broken by
descending access id (`len` of a duplicate-free list is the set's
cardinality). -/
def sortedAccessIds (m : List (String × List String)) : List String :=
  (sortDesc (m.map (fun kv => (kv.2.length, kv.1)))).map Prod.snd

/-- The `for _, access in sorted_accesses` loop of `Herald.fire_group`
(core.py lines 589-622).  Skips an access whose current peer set is
empty, whose transport is unbound (`KeyError`) or raises
`InvalidPeerAccess`; on success records the peer set passed to the
transport, runs the aliasing cleanup, and breaks with `missing = []`
when every remaining set is empty; when the loop exhausts, the `else`
clause collects `missing` as the union of the remaining sets.  Returns
the covered peer sets (in call order) and `missing`. -/
def fgLoop (ts : List (String × Bool)) :
    List String → List (String × List String) →
      List (List String) × List String
  | [], m => ([], unionVals m)
  | a :: rest, m =>
      let ps := (lookup m a).getD []
      if ps.isEmpty then fgLoop ts rest m
      else
        match lookup ts a with
        | none => fgLoop ts rest m
        | some ok =>
            if ok then
              let m' := subtractAll m a ps
              if m'.all (fun kv => kv.2.isEmpty) then ([ps], [])
              else
                let r := fgLoop ts rest m'
                (ps :: r.1, r.2)
            else fgLoop ts rest m

/-- Embedding of `Herald.fire_group` (core.py lines 562-624): `NoTransport` when no
transport is bound; otherwise build the access table, sort, run the
fallback loop and return `(message.uid, covered_sets, missing)` (the
covered sets instrument the successful transport calls). -/
def fireGroup (ts : List (String × Bool))
    (peers : List (String × List String)) (uid : String) :
    Except HErr (String × List (List String) × List String) :=
  if ts.isEmpty then .error (.noTransport "No transport bound yet.")
  else
    let m := buildAccesses peers
    let r := fgLoop ts (sortedAccessIds m) m
    .ok (uid, r.1, r.2)

/-- The group members (`directory.get_peers_for_group`), regardless of
accesses. -/
def groupPeers (peers : List (String × List String)) : List String :=
  peers.foldl (fun acc pa => setAdd acc pa.1) []

/-- C3, the code at the failing input. Peers `b` and `c` both
declare accesses `[mqtt, other]`; only the `mqtt` transport is bound.
The sort tries `other` first (same coverage, descending id), skips it,
then fires `mqtt` successfully with `{b, c}` — yet `fire_group` reports
`{b, c}` as unreached: `access_peers` aliases `accesses['mqtt']`, so
`difference_update` clears it before the `other` entry is reduced, and
the covered peers survive in the final union.  Both conjuncts of the
claim fail: `unreached ⊄ peers \ covered` and
`⋃ covered ≠ peers \ unreached`. -/
theorem fireGroup_alias_failure :
    fireGroup [("mqtt", true)]
        [("b", ["mqtt", "other"]), ("c", ["mqtt", "other"])] "u" =
      .ok ("u", [["b", "c"]], ["b", "c"]) ∧
      setSub ["b", "c"]
        (setDiff (groupPeers [("b", ["mqtt", "other"]), ("c", ["mqtt", "other"])])
          (bigUnion [["b", "c"]])) = false ∧
      setEqB (bigUnion [["b", "c"]])
        (setDiff (groupPeers [("b", ["mqtt", "other"]), ("c", ["mqtt", "other"])])
          ["b", "c"]) = false := by
  refine ⟨by decide, by decide, by decide⟩

end Herald
